import Mathlib

/- Verification of the TrajecSim post-processing library: a shallow embedding of
the wind-table generator, the safety-zone signed-distance evaluator, the
per-run summarization / extrema-extraction pipeline and the KML geometry
generator, together with theorems settling the specification claims.
Floating-point arithmetic of the source is embedded as exact arithmetic over
ℚ (for the executable, algebraic parts) and ℝ (for the transcendental parts);
external geodesic primitives are abstracted as explicit function parameters. -/

/-! ## Wind-profile generator (jsbsim_support/param_generator/wind_table.py) -/

/-- Embedding of `np.arange(start, stop, step)`: `⌈(stop-start)/step⌉` points
starting at `start` with spacing `step`. -/
noncomputable def np_arange (start stop step : ℝ) : List ℝ :=
  (List.range ⌈(stop - start) / step⌉₊).map (fun k : ℕ => start + (k : ℝ) * step)

/-- Embedding of `np.linspace(a, b, n)` (with endpoint): `a + (b-a)·k/(n-1)`. -/
noncomputable def np_linspace (a b : ℝ) (n : ℕ) : List ℝ :=
  (List.range n).map (fun k : ℕ => a + (b - a) * (k : ℝ) / ((n : ℝ) - 1))

/-- Embedding of `np.logspace(a, b, n)`: pointwise `10 ^ ·` of `np.linspace`. -/
noncomputable def np_logspace (a b : ℝ) (n : ℕ) : List ℝ :=
  (np_linspace a b n).map (fun x => (10 : ℝ) ^ x)

/-- The raw altitude list of `generate_wind_table`: 0.1 m steps from 0.1 m to
10 m, 300 logarithmic points from 10 m to 1000 m, 100 m steps from 1000 m
to 10000 m. -/
noncomputable def wind_altitudes_raw : List ℝ :=
  np_arange 0.1 10.1 0.1 ++ np_logspace 1 3 300 ++ np_arange 1000 10001 100

/-- Embedding of `sorted(list(set(l)))`: the distinct elements in ascending
order. -/
noncomputable def sorted_unique (l : List ℝ) : List ℝ :=
  l.toFinset.sort (· ≤ ·)

/-- The power-law terms `(h / ref_altitude) ^ wind_power_factor`, with the
explicit head fix-up of the source when the first altitude is exactly 0:
forced to 0 for a positive exponent and to 1 otherwise. -/
noncomputable def wind_power_terms (alts : List ℝ) (ref_altitude wind_power_factor : ℝ) : List ℝ :=
  let powers := alts.map (fun h => (h / ref_altitude) ^ wind_power_factor)
  match alts, powers with
  | a :: _, _ :: ps =>
    if a = 0 then (if 0 < wind_power_factor then 0 else 1) :: ps else powers
  | _, _ => powers

/-- The constant stored wind direction:
`dir - 180 if dir > 180 else dir + 180`. -/
noncomputable def wind_direction_value (ground_wind_dir : ℝ) : ℝ :=
  if 180 < ground_wind_dir then ground_wind_dir - 180 else ground_wind_dir + 180

/-- Embedding of `generate_wind_table`: the deduplicated sorted altitude list
zipped with power-law wind speeds and the constant reciprocal direction. -/
noncomputable def generate_wind_table
    (ground_wind_dir ground_wind_speed ref_altitude wind_power_factor : ℝ) :
    List (ℝ × ℝ × ℝ) :=
  let altitudes := sorted_unique wind_altitudes_raw
  let power_terms := wind_power_terms altitudes ref_altitude wind_power_factor
  let wind_speeds := power_terms.map (fun p => ground_wind_speed * p)
  let wind_directions := List.replicate altitudes.length (wind_direction_value ground_wind_dir)
  altitudes.zip (wind_speeds.zip wind_directions)

/-- The real-number remainder `a mod b = a - b·⌊a/b⌋`, used to state the
spec's `(dir + 180) mod 360` for the reciprocal bearing. -/
noncomputable def real_mod (a b : ℝ) : ℝ := a - b * ⌊a / b⌋

/-! ## Safety-zone evaluator (landing_range/noshiro_sea.py) -/

/-- The 33 fixed `(latitude, longitude)` vertices of the Noshiro sea safety
polygon. -/
def POLYGON_COORDINATES : List (ℚ × ℚ) := [
  (40.26149300294178, 140.0094791592612),
  (40.2642602688727, 139.9932398872506),
  (40.26460197870949, 139.9909318144494),
  (40.26479085228271, 139.987341377515),
  (40.26433616899444, 139.9822728225093),
  (40.26299626432305, 139.9772825248559),
  (40.26199299246836, 139.9749085824227),
  (40.26086444600114, 139.9728365038179),
  (40.25942370332147, 139.9707401748826),
  (40.25768975453263, 139.9687716646912),
  (40.25623515050533, 139.9674723780254),
  (40.2542151641483, 139.9660514425467),
  (40.25321298436799, 139.9655135448727),
  (40.25217003129539, 139.9650383050235),
  (40.25108666779969, 139.9646461338833),
  (40.24955206871581, 139.9642513745098),
  (40.24773454477712, 139.9640056563258),
  (40.24539983694682, 139.9640511121102),
  (40.24374397618987, 139.9643229542895),
  (40.2425575973181, 139.9646499711443),
  (40.24051201896022, 139.9654720128462),
  (40.2397071808194, 139.9658925750851),
  (40.23887443488726, 139.9663943856586),
  (40.23809058315737, 139.9669364758578),
  (40.23665050758729, 139.9680927149552),
  (40.23501881430268, 139.9697393127221),
  (40.23327859167702, 139.9720099153484),
  (40.2318726711675, 139.9743989893189),
  (40.23049586884894, 139.9776040232665),
  (40.22954585557037, 139.9808509371636),
  (40.22916933193805, 139.9828861110256),
  (40.22887535311624, 139.9845918728399),
  (40.22617410359279, 140.0002466848887)]

/-- The polygon ring in shapely's `(x = longitude, y = latitude)` order. -/
def noshiro_ring : List (ℚ × ℚ) := POLYGON_COORDINATES.map (fun c => (c.2, c.1))

/-- The closed edge list of a ring: consecutive vertices plus the implicit
closing edge from the last vertex back to the first. -/
def ring_edges (ring : List (ℚ × ℚ)) : List ((ℚ × ℚ) × ℚ × ℚ) :=
  ring.zip (ring.rotate 1)

/-- One step of the standard even-odd ray-casting test: does the horizontal
ray from `p` cross the edge `a`–`b`? -/
def ray_crosses (p a b : ℚ × ℚ) : Bool :=
  (decide (p.2 < a.2) != decide (p.2 < b.2)) &&
    decide (p.1 < a.1 + (b.1 - a.1) * (p.2 - a.2) / (b.2 - a.2))

/-- Modelled from the spec: shapely's `Polygon.contains`, specified as the
standard ray-casting / even-odd point-in-polygon rule on the `(lon, lat)`
ring (the library itself is not part of the repository sources). -/
def poly_contains (ring : List (ℚ × ℚ)) (p : ℚ × ℚ) : Bool :=
  ((ring_edges ring).countP (fun e => ray_crosses p e.1 e.2)) % 2 == 1

/-- Squared planar distance between two `(x, y)` points. -/
def sq_dist (p q : ℚ × ℚ) : ℚ := (p.1 - q.1) ^ 2 + (p.2 - q.2) ^ 2

/-- The planar closest point to `p` on the segment `a`–`b` (projection
clamped to the segment). -/
def closest_on_segment (p a b : ℚ × ℚ) : ℚ × ℚ :=
  let len2 := sq_dist a b
  if len2 = 0 then a
  else
    let t := ((p.1 - a.1) * (b.1 - a.1) + (p.2 - a.2) * (b.2 - a.2)) / len2
    let tc := max 0 (min 1 t)
    (a.1 + tc * (b.1 - a.1), a.2 + tc * (b.2 - a.2))

/-- Modelled from the spec: shapely's `nearest_points` against the polygon
boundary, specified as closest-point-on-segment minimization across all
boundary edges (first minimum on ties; the query point itself for an empty
ring). -/
def nearest_on_boundary (ring : List (ℚ × ℚ)) (p : ℚ × ℚ) : ℚ × ℚ :=
  match (ring_edges ring).map (fun e => closest_on_segment p e.1 e.2) with
  | [] => p
  | c :: cs => cs.foldl (fun best q => if sq_dist p q < sq_dist p best then q else best) c

/-- Modelled from the spec: shapely's `nearest_points` against the filled
polygon — for an interior point the point itself, for an exterior point the
nearest boundary point (the spec notes the distance to the polygon area is
"equivalent to boundary distance since the point is outside"). -/
def nearest_on_polygon (ring : List (ℚ × ℚ)) (p : ℚ × ℚ) : ℚ × ℚ :=
  if poly_contains ring p then p else nearest_on_boundary ring p

/-- Embedding of `NoshiroSea.landing_range`. The ellipsoidal geodesic
distance of `geopy.distance.geodesic(...).meters` is abstracted as the
function parameter `geodesic_m lat1 lon1 lat2 lon2`. -/
def landing_range (geodesic_m : ℚ → ℚ → ℚ → ℚ → ℝ) (latitude longitude : ℚ) : ℝ :=
  let point : ℚ × ℚ := (longitude, latitude)
  let is_inside := poly_contains noshiro_ring point
  let nearest :=
    if is_inside then nearest_on_boundary noshiro_ring point
    else nearest_on_polygon noshiro_ring point
  let distance := geodesic_m latitude longitude nearest.2 nearest.1
  if is_inside then distance else -distance

/-! ## KML generator (util/kml_generator.py) -/

/-- The default polyline width of the KML generator. -/
def DEFAULT_LINE_WIDTH : ℕ := 3

/-- The geometry features emitted into a KML document: points, polylines
(with the altitude-mode flag) and polygons. -/
inductive KMLFeature where
  | point (coord : ℚ × ℚ) (name : String) (rgb : Option (ℤ × ℤ × ℤ))
  | line (coords : List (List ℚ)) (name : String) (rgb : ℤ × ℤ × ℤ) (width : ℕ)
      (relativeToGround : Bool)
  | polygon (outerBoundary : List (ℚ × ℚ)) (name : String) (rgb : ℤ × ℤ × ℤ) (width : ℕ)
deriving DecidableEq

/-- Python's `int(...)` on a rational value: truncation toward zero. -/
def python_int (q : ℚ) : ℤ := if q < 0 then ⌈q⌉ else ⌊q⌋

/-- Rational `np.linspace(a, b, n)` (with endpoint); for `n = 1` the rational
division by `n - 1 = 0` yields `a`, matching numpy's single-sample output. -/
def np_linspace_q (a b : ℚ) (n : ℕ) : List ℚ :=
  (List.range n).map (fun k : ℕ => a + (b - a) * (k : ℚ) / ((n : ℚ) - 1))

/-- Embedding of `KMLGenerator.create_color_gradient`: linear interpolation
of the two RGB triples over `n` equally spaced parameters, truncated to
integers. -/
def create_color_gradient (start_color end_color : ℤ × ℤ × ℤ) (n : ℕ) :
    List (ℤ × ℤ × ℤ) :=
  (np_linspace_q 0 1 n).map (fun t =>
    (python_int ((1 - t) * start_color.1 + t * end_color.1),
     python_int ((1 - t) * start_color.2.1 + t * end_color.2.1),
     python_int ((1 - t) * start_color.2.2 + t * end_color.2.2)))

/-- Embedding of `KMLGenerator.add_point`. -/
def add_point (p : ℚ × ℚ) (name : String) (rgb : Option (ℤ × ℤ × ℤ)) : KMLFeature :=
  KMLFeature.point (p.1, p.2) name rgb

/-- Embedding of `KMLGenerator.add_line`. The source reads `points[0]`
unconditionally to pick the altitude mode, so the empty list raises an
`IndexError`, modelled as `none`; otherwise the line feature is emitted with
altitude-relative rendering exactly when the first point has 3 components. -/
def add_line (points : List (List ℚ)) (name : String) (rgb : ℤ × ℤ × ℤ)
    (width : ℕ) : Option KMLFeature :=
  match points with
  | [] => none
  | p :: _ => some (KMLFeature.line points name rgb width (p.length == 3))

/-- Embedding of `np.arctan2(y, x)` (quadrant-aware arctangent). -/
noncomputable def np_arctan2 (y x : ℝ) : ℝ :=
  if 0 < x then Real.arctan (y / x)
  else if x < 0 ∧ 0 ≤ y then Real.arctan (y / x) + Real.pi
  else if x < 0 ∧ y < 0 then Real.arctan (y / x) - Real.pi
  else if x = 0 ∧ 0 < y then Real.pi / 2
  else if x = 0 ∧ y < 0 then -(Real.pi / 2)
  else 0

/-- The sort key of `generate_groundpoint_polygon`: the angle of `p` around
the centroid `center`. -/
noncomputable def angle_from_center (center p : ℚ × ℚ) : ℝ :=
  np_arctan2 ((p.2 : ℝ) - (center.2 : ℝ)) ((p.1 : ℝ) - (center.1 : ℝ))

/-- The angular sort of `generate_groundpoint_polygon`: stable sort of the
points by angle around their centroid. -/
noncomputable def sort_points_by_angle (points : List (ℚ × ℚ)) : List (ℚ × ℚ) :=
  let center_x : ℚ := (points.map Prod.fst).sum / points.length
  let center_y : ℚ := (points.map Prod.snd).sum / points.length
  points.mergeSort (fun p q =>
    decide (angle_from_center (center_x, center_y) p ≤ angle_from_center (center_x, center_y) q))

/-- Embedding of `KMLGenerator.generate_groundpoint_polygon`: fewer than 3
points are left unsorted, otherwise the points are sorted by centroid angle;
the outer boundary is the (possibly sorted) list closed by repeating its
first element, or empty for an empty input. -/
noncomputable def generate_groundpoint_polygon (points : List (ℚ × ℚ)) (name : String)
    (rgb : ℤ × ℤ × ℤ) (width : ℕ) : KMLFeature :=
  let sorted_points := if points.length < 3 then points else sort_points_by_angle points
  let ring :=
    match sorted_points with
    | [] => ([] : List (ℚ × ℚ))
    | h :: t => (h :: t) ++ [h]
  KMLFeature.polygon ring name rgb width

/-- The features emitted for one enumerated group `(i, key, points)` of
`generate_grouped_points_polygons`: individual unnamed points when point
output is on and the group has at most 3 points, and a single footprint
polygon when it has more than 3. -/
noncomputable def group_features (color_gradient : List (ℤ × ℤ × ℤ)) (point_output : Bool)
    (ig : ℕ × String × List (ℚ × ℚ)) : List KMLFeature :=
  let points := ig.2.2
  let current_color := if color_gradient.isEmpty then (255, 0, 0) else color_gradient.getD ig.1 (255, 0, 0)
  (if point_output = true ∧ points.length ≤ 3 then
    points.map (fun p => add_point p "" (some current_color))
  else []) ++
  (if 3 < points.length then
    [generate_groundpoint_polygon points ig.2.1 current_color DEFAULT_LINE_WIDTH]
  else [])

/-- Embedding of `KMLGenerator.generate_grouped_points_polygons`: a color
gradient over the number of groups, then the per-group features of every
enumerated group, concatenated in order. -/
noncomputable def generate_grouped_points_polygons (groups : List (String × List (ℚ × ℚ)))
    (point_output : Bool) : List KMLFeature :=
  let num_groups := groups.length
  let color_gradient :=
    if 0 < num_groups then create_color_gradient (248, 112, 128) (247, 93, 139) num_groups
    else []
  (groups.enum.map (group_features color_gradient point_output)).flatten

/-- Recognizer for point features. -/
def is_point_feature : KMLFeature → Bool
  | KMLFeature.point _ _ _ => true
  | _ => false

/-- Recognizer for polygon features. -/
def is_polygon_feature : KMLFeature → Bool
  | KMLFeature.polygon _ _ _ _ => true
  | _ => false

/-- The outer boundary ring of a polygon feature (empty for other features). -/
def polygon_ring : KMLFeature → List (ℚ × ℚ)
  | KMLFeature.polygon ring _ _ _ => ring
  | _ => []

/-! ## KML merge (util/kml_generator.py, merge_kmz_to_kml) -/

/-- The literal opening text matched by the regex `<Document[^>]*>`. -/
def doc_open_pat : List Char := "<Document".toList

/-- The literal closing tag `</Document>`. -/
def doc_close_pat : List Char := "</Document>".toList

/-- All indices at which `<Document` starts in `s` (candidate starts of the
regex match, leftmost first). -/
def find_open_candidates (s : List Char) : List ℕ :=
  (List.range s.length).filter (fun i => doc_open_pat.isPrefixOf (s.drop i))

/-- The first index `j ≥ start` holding the character `>`, i.e. the end of
`<Document[^>]*>` (the greedy `[^>]*` cannot cross a `>`). -/
def first_gt_index (s : List Char) (start : ℕ) : Option ℕ :=
  ((List.range s.length).filter
    (fun j => decide (start ≤ j) && (s.getD j ' ' == '>'))).head?

/-- The last index `k ≥ start` at which `</Document>` begins: greedy
`(.*)` with `re.DOTALL` extends the group to the final closing tag. -/
def last_close_index (s : List Char) (start : ℕ) : Option ℕ :=
  ((List.range s.length).filter
    (fun k => decide (start ≤ k) && doc_close_pat.isPrefixOf (s.drop k))).getLast?

/-- Matching `<Document[^>]*>(.*)</Document>` at candidate start `i`: the
position of the `>` ending the open tag and the start of the last closing
tag after it. -/
def document_match_at (s : List Char) (i : ℕ) : Option (ℕ × ℕ) :=
  (first_gt_index s (i + 9)).bind
    (fun j => (last_close_index s (j + 1)).map (fun k => (j, k)))

/-- The result of `re.search(r"<Document[^>]*>(.*)</Document>", s, re.DOTALL)`
decomposed as (text before group 1, group 1, text from the end of group 1):
the leftmost candidate admitting a full match wins. -/
def document_split (s : List Char) : Option (List Char × List Char × List Char) :=
  (find_open_candidates s).findSome? (fun i =>
    (document_match_at s i).map (fun jk =>
      (s.take (jk.1 + 1), (s.drop (jk.1 + 1)).take (jk.2 - (jk.1 + 1)), s.drop jk.2)))

/-- Embedding of `merge_kmz_to_kml` on the two document texts: when both
match, the output is the first document's header, its inner Document
content, the second document's inner Document content, then the first
document's footer; otherwise the first document is written unchanged. -/
def merge_kmz_to_kml (existing_content kmz_content : List Char) : List Char :=
  match document_split existing_content, document_split kmz_content with
  | some hef, some hzf => hef.1 ++ hef.2.1 ++ hzf.2.1 ++ hef.2.2
  | _, _ => existing_content

/-! ## Per-run summarization and extrema analysis (util/summarize.py) -/

/-- The fixed gust speed constant of `summarize.py`. -/
noncomputable def VGUST : ℝ := 9.0

/-- One per-timestep record of the raw simulator CSV, with the columns the
summarization pipeline reads. -/
structure RawRow where
  time : ℝ
  latitude : ℝ
  longitude : ℝ
  altitude : ℝ
  angleOfAttack : ℝ
  angleOfSideslip : ℝ
  trueVelocity : ℝ
  groundVelocity : ℝ
  xAcceleration : ℝ
  yAcceleration : ℝ
  zAcceleration : ℝ
  dynamicPressure : ℝ
  thrust : ℝ
  mach : ℝ
  pitchDeg : ℝ
  rollDeg : ℝ
  yawDeg : ℝ
  parachuteDeployGain : ℝ

/-- Embedding of `np.radians`. -/
noncomputable def np_radians (x : ℝ) : ℝ := x * Real.pi / 180

/-- Embedding of `np.degrees`. -/
noncomputable def np_degrees (x : ℝ) : ℝ := x * 180 / Real.pi

/-- The `Angle of Attack(total)` column written by `calculate_aoa`:
`degrees(arccos(cos α · cos β))` with `α`, `β` the angle of attack and
sideslip converted to radians. -/
noncomputable def angle_of_attack_total_value (r : RawRow) : ℝ :=
  np_degrees (Real.arccos
    (Real.cos (np_radians r.angleOfAttack) * Real.cos (np_radians r.angleOfSideslip)))

/-- The `Angle of Attack(gust)` column written by `calculate_aoa`. -/
noncomputable def angle_of_attack_gust_value (r : RawRow) : ℝ :=
  let alpha := np_radians r.angleOfAttack
  let beta := np_radians r.angleOfSideslip
  let vtrue := r.trueVelocity
  np_degrees (Real.arccos
    (Real.cos beta * (vtrue * Real.cos alpha - VGUST * Real.sin beta) /
      Real.sqrt (vtrue * vtrue + VGUST * VGUST * Real.cos beta * Real.cos beta)))

/-- The `True Velocity(gust)` column written by `calculate_aoa`. -/
noncomputable def true_velocity_gust_value (r : RawRow) : ℝ :=
  r.trueVelocity + VGUST * Real.sin (np_radians r.angleOfSideslip)

/-- A raw record extended with the three columns `calculate_aoa` appends. -/
structure AoaRow extends RawRow where
  angleOfAttackTotal : ℝ
  angleOfAttackGust : ℝ
  trueVelocityGust : ℝ

/-- Embedding of `calculate_aoa` on one record. -/
noncomputable def calculate_aoa_row (r : RawRow) : AoaRow :=
  { r with
    angleOfAttackTotal := angle_of_attack_total_value r
    angleOfAttackGust := angle_of_attack_gust_value r
    trueVelocityGust := true_velocity_gust_value r }

/-- Embedding of `calculate_aoa` on the whole table. -/
noncomputable def calculate_aoa : List RawRow → List AoaRow :=
  List.map calculate_aoa_row

/-- A record further extended with the `Acceleration` column appended by
`calculate_acceleration`. -/
structure FullRow extends AoaRow where
  acceleration : ℝ

/-- Embedding of `calculate_acceleration` on one record. -/
noncomputable def calculate_acceleration_row (r : AoaRow) : FullRow :=
  { r with
    acceleration :=
      Real.sqrt (r.xAcceleration ^ 2 + r.yAcceleration ^ 2 + r.zAcceleration ^ 2) }

/-- The per-record column pipeline `calculate_aoa` followed by
`calculate_acceleration`, producing the table `get_extrema_analysis` reads. -/
noncomputable def process_row (r : RawRow) : FullRow :=
  calculate_acceleration_row (calculate_aoa_row r)

/-- Embedding of pandas `Series.max`: `none` on an empty series (pandas
returns NaN there, on which every `<` comparison is false). -/
noncomputable def series_max (l : List ℝ) : Option ℝ :=
  match l with
  | [] => none
  | t :: ts => some (ts.foldl max t)

/-- Embedding of `delete_final_point`: keep exactly the records whose `Time`
is strictly below the maximum `Time` minus 0.01. -/
noncomputable def delete_final_point (rows : List RawRow) : List RawRow :=
  match series_max (rows.map (fun r => r.time)) with
  | none => []
  | some m => rows.filter (fun r => decide (r.time < m - 0.01))

/-- The derived `wind_speed` column of `get_extrema_analysis`. -/
noncomputable def wind_speed_value (r : FullRow) : ℝ := |r.trueVelocity - r.groundVelocity|

/-- The ISA temperature column of `get_extrema_analysis`. -/
noncomputable def calculate_temperature (altitude : ℝ) : ℝ :=
  15.0 - 6.5 * (altitude / 1000.0)

/-- The ISA pressure column of `get_extrema_analysis`. -/
noncomputable def calculate_pressure (altitude : ℝ) : ℝ :=
  1013.25 * ((288.15 - 0.0065 * altitude) / 288.15) ^ (5.256 : ℝ)

/-- The `qbar_atan_aoa` load-metric column of `get_extrema_analysis`:
`dynamic_pressure * np.degrees(angle_of_attack_gust)`, where the
`angle_of_attack_gust` column read from the CSV is already in degrees. -/
noncomputable def qbar_atan_aoa (r : FullRow) : ℝ :=
  r.dynamicPressure * np_degrees r.angleOfAttackGust

/-- The launch geometry parameters read from the run's condition row. -/
structure LaunchParams where
  elevation : ℝ
  launcher_length : ℝ
  pitchParam : ℝ

/-- The launch-clear altitude threshold
`elevation + launcher_length * sin(pitch * π / 180)`. -/
noncomputable def launch_clear_height (p : LaunchParams) : ℝ :=
  p.elevation + p.launcher_length * Real.sin (p.pitchParam * Real.pi / 180)

/-- The result record of `calculate_with_geopy`. -/
structure GeoResult where
  distance_m : ℝ
  lat_diff_m : ℝ
  lon_diff_m : ℝ
  lat_diff_degrees : ℝ
  lon_diff_degrees : ℝ

/-- Embedding of `calculate_with_geopy`. The geodesic meters of
`geopy.distance.geodesic` are abstracted as the parameter
`geodesic_m lat1 lon1 lat2 lon2`; the latitude/longitude components fix one
coordinate and carry the sign of the coordinate difference. -/
noncomputable def calculate_with_geopy (geodesic_m : ℝ → ℝ → ℝ → ℝ → ℝ)
    (lat1 lon1 lat2 lon2 : ℝ) : GeoResult :=
  let distance := geodesic_m lat1 lon1 lat2 lon2
  let lat_distance0 := geodesic_m lat1 lon1 lat2 lon1
  let lat_distance := if lat2 < lat1 then -lat_distance0 else lat_distance0
  let lon_distance0 := geodesic_m lat1 lon1 lat1 lon2
  let lon_distance := if lon2 < lon1 then -lon_distance0 else lon_distance0
  ⟨distance, lat_distance, lon_distance, lat2 - lat1, lon2 - lon1⟩

/-- Embedding of pandas `idxmin` over a list of (original index, record)
pairs: the first index achieving the minimum of `f`, `none` when empty. -/
noncomputable def idxmin_pairs {α : Type} (f : α → ℝ) (l : List (ℕ × α)) : Option ℕ :=
  (l.foldl (fun acc ir =>
    match acc with
    | none => some (ir.1, f ir.2)
    | some jv => if f ir.2 < jv.2 then some (ir.1, f ir.2) else some jv) none).map Prod.fst

/-- Embedding of pandas `idxmax` over (original index, record) pairs: the
first index achieving the maximum of `f`, `none` when empty. -/
noncomputable def idxmax_pairs {α : Type} (f : α → ℝ) (l : List (ℕ × α)) : Option ℕ :=
  (l.foldl (fun acc ir =>
    match acc with
    | none => some (ir.1, f ir.2)
    | some jv => if jv.2 < f ir.2 then some (ir.1, f ir.2) else some jv) none).map Prod.fst

/-- `df[col].idxmin()` on the whole table. -/
noncomputable def idxmin_col (f : FullRow → ℝ) (rows : List FullRow) : Option ℕ :=
  idxmin_pairs f rows.enum

/-- `df[col].idxmax()` on the whole table. -/
noncomputable def idxmax_col (f : FullRow → ℝ) (rows : List FullRow) : Option ℕ :=
  idxmax_pairs f rows.enum

/-- The launch-clear index
`df[df["altitude"] > launch_clear_height]["time"].idxmin()`: among the rows
whose altitude exceeds the threshold, the (original) index of minimum time;
`none` — a raised `ValueError` — when no row qualifies. -/
noncomputable def launch_clear_index (h : ℝ) (rows : List FullRow) : Option ℕ :=
  idxmin_pairs (fun r => r.time)
    (rows.enum.filter (fun ir => decide (h < ir.2.altitude)))

/-- An all-zero record, used as the (never reached) default of positional
row access on indices known to be in range. -/
def default_full_row : FullRow :=
  ⟨⟨⟨0, 0, 0, 0, 0, 0, 0, 0, 0, 0, 0, 0, 0, 0, 0, 0, 0, 0⟩, 0, 0, 0⟩, 0⟩

/-- `df.loc[idx, ...]` positional row access. -/
def row_at (rows : List FullRow) (i : ℕ) : FullRow :=
  rows.getD i default_full_row

/-- One output row of the extrema feature table. -/
structure ExtremaRow where
  extrema_type : String
  extrema_value : ℝ
  time : ℝ
  thrust : ℝ
  acceleration : ℝ
  dynamic_pressure : ℝ
  angle_of_attack_gust : ℝ
  angle_of_attack_total : ℝ
  true_velocity : ℝ
  altitude : ℝ
  temperature : ℝ
  pressure : ℝ
  latitude : ℝ
  longitude : ℝ
  lat_m : ℝ
  long_m : ℝ
  range_m : ℝ
  landing_range_val : ℝ

/-- The detailed output row collected for one extremum at index `idx`. -/
noncomputable def extrema_row_at (geodesic_m : ℝ → ℝ → ℝ → ℝ → ℝ) (ev : ℝ → ℝ → ℝ)
    (rows : List FullRow) (lat0 lon0 : ℝ) (name : String) (idx : ℕ) (value : ℝ) :
    ExtremaRow :=
  let r := row_at rows idx
  let pos_diff := calculate_with_geopy geodesic_m lat0 lon0 r.latitude r.longitude
  { extrema_type := name
    extrema_value := value
    time := r.time
    thrust := r.thrust
    acceleration := r.acceleration
    dynamic_pressure := r.dynamicPressure
    angle_of_attack_gust := r.angleOfAttackGust
    angle_of_attack_total := r.angleOfAttackTotal
    true_velocity := r.trueVelocity
    altitude := r.altitude
    temperature := calculate_temperature r.altitude
    pressure := calculate_pressure r.altitude
    latitude := r.latitude
    longitude := r.longitude
    lat_m := pos_diff.lat_diff_m
    long_m := pos_diff.lon_diff_m
    range_m := pos_diff.distance_m
    landing_range_val := ev r.latitude r.longitude }

/-- The two shapes of `get_extrema_analysis`'s returned DataFrame: the
degenerate single-column result `DataFrame({"landing_range": [0]})` for an
unregistered site, or the full feature table. -/
inductive ExtremaOutput where
  | degenerate (landing_range_col : List ℝ)
  | table (rows : List ExtremaRow)

/-- Modelled from the spec: the `LAUNCH_SITES` registry
(site key → safety-zone evaluator) lives outside the given sources; per the
spec it is a mapping from site identifier to an implementation of
`landing_range(lat, lon) -> float`, modelled as an association list. -/
def lookup_launch_site (sites : List (String × (ℝ → ℝ → ℝ))) (key : String) :
    Option (ℝ → ℝ → ℝ) :=
  sites.lookup key

/-- Embedding of `get_extrema_analysis`. An unregistered
`landing_range_script` short-circuits to the degenerate zero table; an empty
table or a never-exceeded launch-clear threshold is a raised pandas error,
modelled as `none`; otherwise the ten named extrema rows are produced in
source order. -/
noncomputable def get_extrema_analysis (sites : List (String × (ℝ → ℝ → ℝ)))
    (landing_range_script : String) (p : LaunchParams)
    (geodesic_m : ℝ → ℝ → ℝ → ℝ → ℝ) (rows : List FullRow) : Option ExtremaOutput :=
  match lookup_launch_site sites landing_range_script with
  | none => some (ExtremaOutput.degenerate [0])
  | some landing_range_obj =>
    match idxmin_col (fun r => r.time) rows with
    | none => none
    | some initial_point_idx =>
      let lat0 := (row_at rows initial_point_idx).latitude
      let lon0 := (row_at rows initial_point_idx).longitude
      match launch_clear_index (launch_clear_height p) rows with
      | none => none
      | some launch_clear_idx =>
        let mk := extrema_row_at geodesic_m landing_range_obj rows lat0 lon0
        let max_speed_idx := (idxmax_col (fun r => r.trueVelocity) rows).getD 0
        let max_qbar_idx := (idxmax_col (fun r => r.dynamicPressure) rows).getD 0
        let max_accel_idx := (idxmax_col (fun r => r.acceleration) rows).getD 0
        let max_qbar_atan_idx := (idxmax_col qbar_atan_aoa rows).getD 0
        let max_altitude_idx := (idxmax_col (fun r => r.altitude) rows).getD 0
        let final_point_idx := (idxmax_col (fun r => r.time) rows).getD 0
        let parachute_deploy_idx := (idxmax_col (fun r => r.parachuteDeployGain) rows).getD 0
        let max_thrust_idx := (idxmax_col (fun r => r.thrust) rows).getD 0
        some (ExtremaOutput.table [
          mk "initial_point" initial_point_idx (row_at rows initial_point_idx).altitude,
          mk "launch_clear" launch_clear_idx (row_at rows launch_clear_idx).altitude,
          mk "max_speed" max_speed_idx (row_at rows max_speed_idx).trueVelocity,
          mk "max_dynamic_pressure" max_qbar_idx (row_at rows max_qbar_idx).dynamicPressure,
          mk "max_acceleration" max_accel_idx (row_at rows max_accel_idx).acceleration,
          mk "max_qbar_atan_aoa" max_qbar_atan_idx (qbar_atan_aoa (row_at rows max_qbar_atan_idx)),
          mk "max_altitude" max_altitude_idx (row_at rows max_altitude_idx).altitude,
          mk "final_point" final_point_idx (row_at rows final_point_idx).altitude,
          mk "parachute_deploy" parachute_deploy_idx (row_at rows parachute_deploy_idx).parachuteDeployGain,
          mk "max_thrust" max_thrust_idx (row_at rows max_thrust_idx).thrust])

/-- The per-run summary row of `summarize_output_info_df`. -/
structure SummaryRow where
  max_altitude : ℝ
  max_speed : ℝ
  landed_latitude : ℝ
  landed_longitude : ℝ
  max_pressure : ℝ
  launch_clear_speed : ℝ

/-- Embedding of `summarize_output_info_df` (its tabular result; the KML
side outputs are separate artifacts). The launch-clear speed is
`df[df.Altitude > launch_clear_height].iloc[0]["True Velocity"]`, whose
`iloc[0]` on an empty selection is a raised `IndexError`, modelled as
`none`. -/
noncomputable def summarize_output_info_df (p : LaunchParams) (rows : List FullRow) :
    Option SummaryRow :=
  match (rows.filter (fun r => decide (launch_clear_height p < r.altitude))).head? with
  | none => none
  | some launch_clear_row =>
    match rows.getLast?, series_max (rows.map (fun r => r.altitude)),
        series_max (rows.map (fun r => r.trueVelocity)),
        series_max (rows.map (fun r => r.dynamicPressure)) with
    | some landed, some max_altitude, some max_speed, some max_pressure =>
      some ⟨max_altitude, max_speed, landed.latitude, landed.longitude, max_pressure,
        launch_clear_row.trueVelocity⟩
    | _, _, _, _ => none

/-! ## Ensemble table operations (util/summarize.py) -/

/-- One member row of a wind-direction group of the ensemble summary. -/
structure GroupMemberRow where
  landed_latitude : ℝ
  landed_longitude : ℝ

/-- The result of `generate_final_points_dataframe`: the degenerate
`DataFrame({"landing_range": [0]})` for an unregistered site, or one row
`(group_key, landed_longitude, landed_latitude, landing_range)` per group
member. -/
inductive FinalPointsResult where
  | degenerate (landing_range_col : List ℝ)
  | table (rows : List (String × ℝ × ℝ × ℝ))

/-- Embedding of `generate_final_points_dataframe`. -/
noncomputable def generate_final_points_dataframe (sites : List (String × (ℝ → ℝ → ℝ)))
    (grouped_df : List (String × List GroupMemberRow)) (landing_range_script : String) :
    FinalPointsResult :=
  match lookup_launch_site sites landing_range_script with
  | none => FinalPointsResult.degenerate [0]
  | some landing_range_obj =>
    FinalPointsResult.table ((grouped_df.map (fun g =>
      g.2.map (fun row =>
        (g.1, row.landed_longitude, row.landed_latitude,
          landing_range_obj row.landed_latitude row.landed_longitude)))).flatten)

/-- One row of the ensemble simulation summary DataFrame: the tuple-keyed
condition columns plus the landed coordinates. -/
structure SimRow where
  vals : List ((String × String) × ℝ)
  landed_latitude : ℝ
  landed_longitude : ℝ

/-- The ensemble simulation summary DataFrame: its tuple column labels and
its rows. -/
structure SimDF where
  cols : List (String × String)
  simRows : List SimRow

/-- Python's substring containment `needle in hay`. -/
def str_contains (hay needle : String) : Bool :=
  (List.range (hay.toList.length + 1)).any
    (fun i => needle.toList.isPrefixOf (hay.toList.drop i))

/-- The result of `generate_landing_range_table`: the empty DataFrame, or a
pivot table of mean landing range keyed by (wind speed, wind direction). -/
inductive LandingRangeTable where
  | empty
  | pivotTable (cells : List ((ℝ × ℝ) × ℝ))

/-- The arithmetic mean of a list. -/
noncomputable def mean_list (xs : List ℝ) : ℝ := xs.sum / xs.length

/-- Embedding of
`pivot_table(index=wind_speed, columns=wind_dir, values=landing_range, aggfunc=mean)`
on the flat `(wind_speed, wind_dir, landing_range)` rows: one cell per
distinct (speed, direction) pair holding the mean landing range; absent
combinations simply have no cell. -/
noncomputable def pivot_table_mean (triples : List (ℝ × ℝ × ℝ)) : List ((ℝ × ℝ) × ℝ) :=
  ((triples.map (fun t => (t.1, t.2.1))).dedup).map
    (fun key => (key,
      mean_list ((triples.filter (fun t => decide ((t.1, t.2.1) = key))).map
        (fun t => t.2.2))))

/-- Embedding of `generate_landing_range_table`: the empty DataFrame for an
unregistered site or missing wind columns, otherwise the mean landing-range
pivot over the per-run rows. -/
noncomputable def generate_landing_range_table (sites : List (String × (ℝ → ℝ → ℝ)))
    (simulation_df : SimDF) (landing_range_script : String) : LandingRangeTable :=
  match lookup_launch_site sites landing_range_script with
  | none => LandingRangeTable.empty
  | some landing_range_obj =>
    let ground_wind_speed_cols :=
      simulation_df.cols.filter (fun c => str_contains c.2 "ground_wind_speed")
    let ground_wind_dir_cols :=
      simulation_df.cols.filter (fun c => str_contains c.2 "ground_wind_dir")
    if ground_wind_speed_cols.isEmpty || ground_wind_dir_cols.isEmpty then
      LandingRangeTable.empty
    else
      let table_data := simulation_df.simRows.map (fun row =>
        ((row.vals.lookup (ground_wind_speed_cols.headD ("", ""))).getD 0,
         (row.vals.lookup (ground_wind_dir_cols.headD ("", ""))).getD 0,
         landing_range_obj row.landed_latitude row.landed_longitude))
      LandingRangeTable.pivotTable (pivot_table_mean table_data)

/-! ## Helper lemmas -/

theorem foldl_max_init_le (l : List ℝ) : ∀ b : ℝ, b ≤ l.foldl max b := by
  induction l with
  | nil => intro b; simp
  | cons a t ih =>
    intro b
    calc b ≤ max b a := le_max_left _ _
    _ ≤ t.foldl max (max b a) := ih _

theorem le_foldl_max_of_mem {l : List ℝ} {x : ℝ} (hx : x ∈ l) : ∀ b : ℝ, x ≤ l.foldl max b := by
  induction l with
  | nil => cases hx
  | cons a t ih =>
    intro b
    rcases List.mem_cons.1 hx with h | h
    · subst h
      calc x ≤ max b x := le_max_right _ _
      _ ≤ t.foldl max (max b x) := foldl_max_init_le _ _
    · exact ih h _

theorem le_series_max {l : List ℝ} {x m : ℝ} (hx : x ∈ l) (hm : series_max l = some m) :
    x ≤ m := by
  cases l with
  | nil => cases hx
  | cons t ts =>
    simp only [series_max, Option.some.injEq] at hm
    subst hm
    rcases List.mem_cons.1 hx with h | h
    · subst h; exact foldl_max_init_le _ _
    · exact le_foldl_max_of_mem h _

/-! ## C5: signed distance of the safety-zone evaluator -/

/-- C5 (confirmed): `landing_range` returns the geodesic distance from the
query point to the nearest point of the polygon boundary, signed positively
exactly when the point-in-polygon test places the point inside; in the
outside branch the nearest point on the filled polygon coincides with the
nearest boundary point. The ellipsoidal geodesic measure is abstracted as
`geodesic_m`. -/
theorem c5_signed_distance_sign_and_target (geodesic_m : ℚ → ℚ → ℚ → ℚ → ℝ)
    (latitude longitude : ℚ) :
    landing_range geodesic_m latitude longitude =
      (if poly_contains noshiro_ring (longitude, latitude) = true then (1 : ℝ) else -1) *
        geodesic_m latitude longitude
          (nearest_on_boundary noshiro_ring (longitude, latitude)).2
          (nearest_on_boundary noshiro_ring (longitude, latitude)).1 := by
  unfold landing_range nearest_on_polygon
  by_cases h : poly_contains noshiro_ring (longitude, latitude) = true
  · simp [h]
  · simp [h]

/-! ## C9: add_line on empty and non-empty point lists -/

/-- C9 (confirmed): `add_line` hits an `IndexError` (modelled `none`) on the
empty list because it reads `points[0]` unconditionally, and on any
non-empty list it emits the line feature with altitude-relative mode exactly
when the first point has three components. -/
theorem c9_add_line_empty_and_mode (points : List (List ℚ)) (name : String)
    (rgb : ℤ × ℤ × ℤ) (width : ℕ) :
    (points = [] → add_line points name rgb width = none) ∧
    (∀ p ps, points = p :: ps →
      add_line points name rgb width =
        some (KMLFeature.line points name rgb width (p.length == 3))) := by
  constructor
  · rintro rfl; rfl
  · rintro p ps rfl; rfl

theorem c9_add_line_witness :
    add_line ([] : List (List ℚ)) "flight_path" (255, 0, 0) 3 = none ∧
    add_line [[139, 40, 100]] "flight_path" (255, 0, 0) 3 =
      some (KMLFeature.line [[139, 40, 100]] "flight_path" (255, 0, 0) 3 true) ∧
    add_line [[139, 40]] "flight_path" (0, 255, 0) 3 =
      some (KMLFeature.line [[139, 40]] "flight_path" (0, 255, 0) 3 false) := by
  refine ⟨(c9_add_line_empty_and_mode [] "flight_path" (255, 0, 0) 3).1 rfl, ?_, ?_⟩
  · simpa using
      (c9_add_line_empty_and_mode [[139, 40, 100]] "flight_path" (255, 0, 0) 3).2
        [139, 40, 100] [] rfl
  · simpa using
      (c9_add_line_empty_and_mode [[139, 40]] "flight_path" (0, 255, 0) 3).2
        [139, 40] [] rfl

/-! ## C10: delete_final_point -/

/-- C10 (confirmed): `delete_final_point` keeps exactly the records whose
time is strictly below the maximum time minus 0.01, as an order-preserving
sublist with the rows untouched, and the record(s) at the maximum time are
always removed. -/
theorem c10_delete_final_point_filter (rows : List RawRow) (m : ℝ)
    (hm : series_max (rows.map (fun r => r.time)) = some m) :
    delete_final_point rows = rows.filter (fun r => decide (r.time < m - 0.01)) ∧
    (delete_final_point rows).Sublist rows ∧
    (∀ r ∈ rows, r.time ≤ m) ∧
    (∀ r ∈ rows, r.time = m → r ∉ delete_final_point rows) ∧
    (∀ r ∈ delete_final_point rows, r.time < m - 0.01) := by
  have heq : delete_final_point rows = rows.filter (fun r => decide (r.time < m - 0.01)) := by
    unfold delete_final_point
    rw [hm]
  refine ⟨heq, ?_, ?_, ?_, ?_⟩
  · rw [heq]; exact List.filter_sublist _
  · intro r hr
    exact le_series_max (List.mem_map.2 ⟨r, hr, rfl⟩) hm
  · intro r _ hrt hmem
    rw [heq] at hmem
    have := (List.mem_filter.1 hmem).2
    rw [hrt] at this
    have : m < m - 0.01 := of_decide_eq_true this
    linarith
  · intro r hr
    rw [heq] at hr
    exact of_decide_eq_true (List.mem_filter.1 hr).2

/-- A raw record with the given time and all other columns zero. -/
def mk_raw_row (t : ℝ) : RawRow := ⟨t, 0, 0, 0, 0, 0, 0, 0, 0, 0, 0, 0, 0, 0, 0, 0, 0, 0⟩

/-- The concrete two-record table used to witness C10. -/
def c10_rows : List RawRow := [mk_raw_row 1, mk_raw_row 3]

theorem c10_delete_final_point_witness :
    series_max (c10_rows.map (fun r => r.time)) = some 3 ∧
    (delete_final_point c10_rows = c10_rows.filter (fun r => decide (r.time < 3 - 0.01)) ∧
     (delete_final_point c10_rows).Sublist c10_rows ∧
     (∀ r ∈ c10_rows, r.time ≤ 3) ∧
     (∀ r ∈ c10_rows, r.time = 3 → r ∉ delete_final_point c10_rows) ∧
     (∀ r ∈ delete_final_point c10_rows, r.time < 3 - 0.01)) := by
  have hm : series_max (c10_rows.map (fun r => r.time)) = some 3 := by
    norm_num [c10_rows, mk_raw_row, series_max, max_def]
  exact ⟨hm, c10_delete_final_point_filter c10_rows 3 hm⟩

/-! ## C2: unregistered safety-zone site key -/

/-- C2 (corrected): for a site key with no registered evaluator, all three
operations return degenerate results and none of them fails hard —
`generate_landing_range_table` the empty table,
`generate_final_points_dataframe` the single zero landing-range row, and the
single-run `get_extrema_analysis` likewise the degenerate
`DataFrame({"landing_range": [0]})` rather than an error. -/
theorem c2_unregistered_site_degenerate (sites : List (String × (ℝ → ℝ → ℝ)))
    (landing_range_script : String) (p : LaunchParams)
    (geodesic_m : ℝ → ℝ → ℝ → ℝ → ℝ) (rows : List FullRow)
    (grouped_df : List (String × List GroupMemberRow)) (simulation_df : SimDF)
    (h : lookup_launch_site sites landing_range_script = none) :
    get_extrema_analysis sites landing_range_script p geodesic_m rows =
      some (ExtremaOutput.degenerate [0]) ∧
    generate_landing_range_table sites simulation_df landing_range_script =
      LandingRangeTable.empty ∧
    generate_final_points_dataframe sites grouped_df landing_range_script =
      FinalPointsResult.degenerate [0] := by
  unfold get_extrema_analysis generate_landing_range_table generate_final_points_dataframe
  rw [h]
  exact ⟨rfl, rfl, rfl⟩

theorem c2_unregistered_site_witness :
    lookup_launch_site [] "noshiro_sea" = none ∧
    (get_extrema_analysis [] "noshiro_sea" ⟨0, 0, 0⟩ (fun _ _ _ _ => 0) [] =
      some (ExtremaOutput.degenerate [0]) ∧
    generate_landing_range_table [] ⟨[], []⟩ "noshiro_sea" = LandingRangeTable.empty ∧
    generate_final_points_dataframe [] [] "noshiro_sea" =
      FinalPointsResult.degenerate [0]) :=
  ⟨rfl, c2_unregistered_site_degenerate [] "noshiro_sea" ⟨0, 0, 0⟩ (fun _ _ _ _ => 0) [] [] ⟨[], []⟩ rfl⟩

/-- C2 counterexample: with no evaluator registered for the key,
`get_extrema_analysis` produces the numeric degenerate zero landing-range
row — it does not fail hard (`none`), contrary to the claim. -/
theorem c2_counterexample :
    get_extrema_analysis [] "noshiro_sea" ⟨0, 0, 0⟩ (fun _ _ _ _ => 0) [] =
      some (ExtremaOutput.degenerate [0]) ∧
    some (ExtremaOutput.degenerate [0]) ≠ (none : Option ExtremaOutput) :=
  ⟨rfl, by simp⟩

/-! ## C1: the qbar_atan_aoa load-metric column -/

/-- C1 amended (corrected): for every record of the pipeline, the
`qbar_atan_aoa` column equals the dynamic pressure multiplied by a second
degrees conversion of the gust (not total) angle-of-attack column — that
column, written by `calculate_aoa`, is already the gust AoA in degrees. -/
theorem c1_load_metric_is_double_degrees_gust (r : RawRow) :
    qbar_atan_aoa (process_row r) =
      r.dynamicPressure * np_degrees (np_degrees (Real.arccos
        (Real.cos (np_radians r.angleOfSideslip) *
          (r.trueVelocity * Real.cos (np_radians r.angleOfAttack) -
            VGUST * Real.sin (np_radians r.angleOfSideslip)) /
          Real.sqrt (r.trueVelocity * r.trueVelocity +
            VGUST * VGUST * Real.cos (np_radians r.angleOfSideslip) *
              Real.cos (np_radians r.angleOfSideslip))))) := rfl

/-- The concrete record refuting the claimed load-metric formula:
90° angle of attack, no sideslip, unit velocity, unit dynamic pressure. -/
def c1_row : RawRow := ⟨0, 0, 0, 0, 90, 0, 1, 0, 0, 0, 0, 1, 0, 0, 0, 0, 0, 0⟩

/-- C1 counterexample: at `c1_row` the `qbar_atan_aoa` column (which is
`16200 / π`) differs from dynamic pressure times the total angle of attack
in degrees (which is `90`). -/
theorem c1_counterexample :
    qbar_atan_aoa (process_row c1_row) ≠
      c1_row.dynamicPressure * angle_of_attack_total_value c1_row := by
  have hpi : Real.pi ≠ 0 := ne_of_gt Real.pi_pos
  have hrad90 : np_radians (90 : ℝ) = Real.pi / 2 := by
    unfold np_radians; ring
  have hrad0 : np_radians (0 : ℝ) = 0 := by
    unfold np_radians; ring
  have hgust : angle_of_attack_gust_value c1_row = 90 := by
    show np_degrees (Real.arccos
      (Real.cos (np_radians (0 : ℝ)) *
        ((1 : ℝ) * Real.cos (np_radians (90 : ℝ)) - VGUST * Real.sin (np_radians (0 : ℝ))) /
        Real.sqrt ((1 : ℝ) * 1 + VGUST * VGUST * Real.cos (np_radians (0 : ℝ)) *
          Real.cos (np_radians (0 : ℝ))))) = 90
    rw [hrad90, hrad0]
    rw [Real.cos_pi_div_two, Real.sin_zero, Real.cos_zero]
    norm_num [Real.arccos_zero, np_degrees]
    field_simp
    ring
  have htotal : angle_of_attack_total_value c1_row = 90 := by
    show np_degrees (Real.arccos
      (Real.cos (np_radians (90 : ℝ)) * Real.cos (np_radians (0 : ℝ)))) = 90
    rw [hrad90, hrad0, Real.cos_pi_div_two, Real.cos_zero]
    norm_num [Real.arccos_zero, np_degrees]
    field_simp
    ring
  have hL : qbar_atan_aoa (process_row c1_row) = np_degrees 90 := by
    show c1_row.dynamicPressure * np_degrees (angle_of_attack_gust_value c1_row) = _
    rw [hgust]
    show (1 : ℝ) * np_degrees 90 = np_degrees 90
    ring
  rw [hL, htotal]
  show np_degrees 90 ≠ c1_row.dynamicPressure * 90
  unfold np_degrees
  show (90 : ℝ) * 180 / Real.pi ≠ (1 : ℝ) * 90
  intro hEq
  rw [div_eq_iff hpi] at hEq
  nlinarith [Real.pi_lt_d2, Real.pi_gt_three]

/-! ## C3: launch-clear threshold never exceeded -/

theorem idxmin_pairs_fold_isSome {α : Type} (f : α → ℝ) (l : List (ℕ × α)) (jv : ℕ × ℝ) :
    (l.foldl (fun acc ir =>
      match acc with
      | none => some (ir.1, f ir.2)
      | some jv => if f ir.2 < jv.2 then some (ir.1, f ir.2) else some jv) (some jv)).isSome := by
  induction l generalizing jv with
  | nil => rfl
  | cons x xs ih =>
    simp only [List.foldl_cons]
    by_cases h : f x.2 < jv.2 <;> simp [h, ih]

theorem idxmin_pairs_cons_isSome {α : Type} (f : α → ℝ) (x : ℕ × α) (xs : List (ℕ × α)) :
    (idxmin_pairs f (x :: xs)).isSome := by
  unfold idxmin_pairs
  simp only [Option.isSome_map']
  simp only [List.foldl_cons]
  exact idxmin_pairs_fold_isSome f xs (x.1, f x.2)

theorem launch_clear_index_eq_none {h : ℝ} {rows : List FullRow}
    (hall : ∀ r ∈ rows, r.altitude ≤ h) : launch_clear_index h rows = none := by
  unfold launch_clear_index
  have hfil : rows.enum.filter (fun ir => decide (h < ir.2.altitude)) = [] := by
    rw [List.filter_eq_nil_iff]
    intro ir hir
    have hzip : (ir.1, ir.2) ∈ (List.range rows.length).zip rows := by
      rw [← List.enum_eq_zip_range]
      exact hir
    have hmem : ir.2 ∈ rows := (List.of_mem_zip hzip).2
    simp only [decide_eq_true_eq, not_lt]
    exact hall _ hmem
  rw [hfil]
  rfl

/-- C3 (confirmed): when the evaluator for the site key is registered and no
record's altitude exceeds the launch-clear threshold
`elevation + launcher_length·sin(pitch)`, both `get_extrema_analysis` (whose
`idxmin` over the empty qualifying selection raises a `ValueError`) and
`summarize_output_info_df` (whose `iloc[0]` on the empty selection raises an
`IndexError`) fail with an explicit error, modelled as `none`, rather than
returning a default index or value. -/
theorem c3_threshold_never_exceeded_errors (sites : List (String × (ℝ → ℝ → ℝ)))
    (landing_range_script : String) (ev : ℝ → ℝ → ℝ) (p : LaunchParams)
    (geodesic_m : ℝ → ℝ → ℝ → ℝ → ℝ) (rows : List FullRow)
    (hreg : lookup_launch_site sites landing_range_script = some ev)
    (hall : ∀ r ∈ rows, r.altitude ≤ launch_clear_height p) :
    get_extrema_analysis sites landing_range_script p geodesic_m rows = none ∧
    summarize_output_info_df p rows = none := by
  constructor
  · unfold get_extrema_analysis
    rw [hreg]
    cases hidx : idxmin_col (fun r => r.time) rows with
    | none => rfl
    | some j =>
      rw [launch_clear_index_eq_none hall]
  · unfold summarize_output_info_df
    have hfil : rows.filter (fun r => decide (launch_clear_height p < r.altitude)) = [] := by
      rw [List.filter_eq_nil_iff]
      intro r hr
      simp only [decide_eq_true_eq, not_lt]
      exact hall r hr
    rw [hfil]
    rfl

/-- A concrete safety-zone evaluator for the C3 witness. -/
def c3_ev : ℝ → ℝ → ℝ := fun _ _ => 0

/-- A concrete one-entry registry for the C3 witness. -/
def c3_sites : List (String × (ℝ → ℝ → ℝ)) := [("noshiro_sea", c3_ev)]

/-- Launch geometry with zero pitch: threshold `100 + 5·sin 0 = 100`. -/
def c3_params : LaunchParams := ⟨100, 5, 0⟩

/-- A single record that stays at altitude 50, below the threshold. -/
def c3_row : FullRow :=
  ⟨⟨⟨0, 0, 0, 50, 0, 0, 0, 0, 0, 0, 0, 0, 0, 0, 0, 0, 0, 0⟩, 0, 0, 0⟩, 0⟩

theorem c3_threshold_witness :
    lookup_launch_site c3_sites "noshiro_sea" = some c3_ev ∧
    (∀ r ∈ [c3_row], r.altitude ≤ launch_clear_height c3_params) ∧
    (get_extrema_analysis c3_sites "noshiro_sea" c3_params (fun _ _ _ _ => 0) [c3_row] = none ∧
     summarize_output_info_df c3_params [c3_row] = none) := by
  have hreg : lookup_launch_site c3_sites "noshiro_sea" = some c3_ev := rfl
  have hall : ∀ r ∈ [c3_row], r.altitude ≤ launch_clear_height c3_params := by
    intro r hr
    rw [List.mem_singleton] at hr
    subst hr
    show (50 : ℝ) ≤ launch_clear_height c3_params
    unfold launch_clear_height c3_params
    norm_num [Real.sin_zero]
  exact ⟨hreg, hall,
    c3_threshold_never_exceeded_errors c3_sites "noshiro_sea" c3_ev c3_params
      (fun _ _ _ _ => 0) [c3_row] hreg hall⟩

/-! ## C4 and C6: wind-table direction and altitude ordering -/

theorem wind_table_third_component (d s r a : ℝ) :
    ∀ x ∈ generate_wind_table d s r a, x.2.2 = wind_direction_value d := by
  intro x hx
  simp only [generate_wind_table] at hx
  have h1 := (List.of_mem_zip hx).2
  have h2 := (List.of_mem_zip h1).2
  exact List.eq_of_mem_replicate h2

theorem wind_power_terms_length (alts : List ℝ) (ref a : ℝ) :
    (wind_power_terms alts ref a).length = alts.length := by
  cases alts with
  | nil => rfl
  | cons x xs =>
    simp only [wind_power_terms]
    by_cases hx : x = 0 <;> simp [hx]

theorem generate_wind_table_length (d s r a : ℝ) :
    (generate_wind_table d s r a).length = (sorted_unique wind_altitudes_raw).length := by
  simp [generate_wind_table, wind_power_terms_length]

theorem generate_wind_table_map_fst (d s r a : ℝ) :
    (generate_wind_table d s r a).map Prod.fst = sorted_unique wind_altitudes_raw := by
  simp only [generate_wind_table]
  apply List.map_fst_zip
  simp [wind_power_terms_length]

theorem wind_altitudes_nonempty : sorted_unique wind_altitudes_raw ≠ [] := by
  have h01 : (0.1 : ℝ) ∈ wind_altitudes_raw := by
    unfold wind_altitudes_raw
    refine List.mem_append.2 (Or.inl (List.mem_append.2 (Or.inl ?_)))
    unfold np_arange
    have hr : (0 : ℕ) ∈ List.range ⌈((10.1 : ℝ) - 0.1) / 0.1⌉₊ :=
      List.mem_range.2 (Nat.ceil_pos.2 (by norm_num))
    have hm := List.mem_map_of_mem (f := fun k : ℕ => (0.1 : ℝ) + (k : ℝ) * 0.1) hr
    simpa using hm
  have hmem : (0.1 : ℝ) ∈ sorted_unique wind_altitudes_raw := by
    unfold sorted_unique
    rw [Finset.mem_sort]
    exact List.mem_toFinset.2 h01
  exact List.ne_nil_of_mem hmem

/-- C6 (confirmed): for every input, the altitude components of
`generate_wind_table`'s result are strictly increasing (hence pairwise
unique) — the raw union of the three ranges is deduplicated by `set` and
sorted ascending. -/
theorem c6_wind_table_altitudes_strictly_increasing (d s r a : ℝ) :
    ((generate_wind_table d s r a).map Prod.fst).Pairwise (· < ·) := by
  rw [generate_wind_table_map_fst]
  unfold sorted_unique
  exact Finset.sort_sorted_lt _

/-- C4 amended (corrected): every sample of `generate_wind_table` carries the
same stored direction `dir - 180` (when `dir > 180`) or `dir + 180`
(otherwise); for ground directions in `[0, 360)` this value lies in
`(0, 360]`, and for every direction except exactly `dir = 180` it equals the
reciprocal bearing `(dir + 180) mod 360` and lies in `[0, 360)`; at
`dir = 180` the stored value is `360`, one full turn rather than `0`. -/
theorem c4_wind_direction_reciprocal (d s r a : ℝ) (h0 : 0 ≤ d) (h1 : d < 360) :
    ∀ x ∈ generate_wind_table d s r a,
      x.2.2 = wind_direction_value d ∧
      0 < x.2.2 ∧ x.2.2 ≤ 360 ∧
      (d ≠ 180 → x.2.2 = real_mod (d + 180) 360 ∧ x.2.2 < 360) := by
  intro x hx
  have hdir := wind_table_third_component d s r a x hx
  rw [hdir]
  refine ⟨rfl, ?_, ?_, ?_⟩
  · unfold wind_direction_value
    split_ifs with hgt <;> linarith
  · unfold wind_direction_value
    split_ifs with hgt <;> linarith
  · intro hne
    unfold wind_direction_value real_mod
    rcases lt_or_gt_of_ne hne with hlt | hgt
    · rw [if_neg (by linarith : ¬ (180 : ℝ) < d)]
      have hfloor : ⌊(d + 180) / 360⌋ = 0 := by
        rw [Int.floor_eq_iff]
        constructor
        · push_cast
          exact div_nonneg (by linarith) (by norm_num)
        · push_cast
          have hd1 : (d + 180) / 360 < 1 := by
            rw [div_lt_one (by norm_num : (0 : ℝ) < 360)]
            linarith
          linarith
      rw [hfloor]
      constructor
      · push_cast
        ring
      · linarith
    · rw [if_pos hgt]
      have hfloor : ⌊(d + 180) / 360⌋ = 1 := by
        rw [Int.floor_eq_iff]
        constructor
        · push_cast
          rw [le_div_iff₀ (by norm_num : (0 : ℝ) < 360)]
          linarith
        · push_cast
          have hd2 : (d + 180) / 360 < 2 := by
            rw [div_lt_iff₀ (by norm_num : (0 : ℝ) < 360)]
            linarith
          linarith
      rw [hfloor]
      constructor
      · push_cast
        ring
      · linarith

theorem c4_wind_direction_witness :
    (0 : ℝ) ≤ 30 ∧ (30 : ℝ) < 360 ∧
    ∀ x ∈ generate_wind_table 30 10 10 0.14,
      x.2.2 = wind_direction_value 30 ∧
      0 < x.2.2 ∧ x.2.2 ≤ 360 ∧
      ((30 : ℝ) ≠ 180 → x.2.2 = real_mod (30 + 180) 360 ∧ x.2.2 < 360) :=
  ⟨by norm_num, by norm_num,
    c4_wind_direction_reciprocal 30 10 10 0.14 (by norm_num) (by norm_num)⟩

/-- C4 counterexample: at ground direction `180` (inside `[0, 360)`) the
table stores direction `360`, which is outside `[0, 360)` and differs from
the reciprocal bearing `(180 + 180) mod 360 = 0` the claim requires. -/
theorem c4_counterexample :
    (0 : ℝ) ≤ 180 ∧ (180 : ℝ) < 360 ∧ real_mod ((180 : ℝ) + 180) 360 = 0 ∧
    ∃ x ∈ generate_wind_table 180 10 10 0.14,
      x.2.2 = 360 ∧ ¬ x.2.2 < 360 ∧ x.2.2 ≠ real_mod ((180 : ℝ) + 180) 360 := by
  have hmod : real_mod ((180 : ℝ) + 180) 360 = 0 := by
    unfold real_mod
    have h1 : ((180 : ℝ) + 180) / 360 = 1 := by norm_num
    rw [h1, Int.floor_one]
    norm_num
  have hne : generate_wind_table 180 10 10 0.14 ≠ [] := by
    intro hnil
    have hlen := generate_wind_table_length 180 10 10 0.14
    rw [hnil] at hlen
    cases hsort : sorted_unique wind_altitudes_raw with
    | nil => exact wind_altitudes_nonempty hsort
    | cons y ys =>
      rw [hsort] at hlen
      simp at hlen
  obtain ⟨x, hx⟩ := List.exists_mem_of_ne_nil _ hne
  have hdir := wind_table_third_component 180 10 10 0.14 x hx
  have hval : wind_direction_value (180 : ℝ) = 360 := by
    unfold wind_direction_value
    rw [if_neg (by norm_num)]
    norm_num
  refine ⟨by norm_num, by norm_num, hmod, x, hx, ?_, ?_, ?_⟩
  · rw [hdir, hval]
  · rw [hdir, hval]
    norm_num
  · rw [hdir, hval, hmod]
    norm_num

/-! ## C7: grouped landing-point output -/

theorem length_filter_flatten {α : Type} (p : α → Bool) (L : List (List α)) :
    (L.flatten.filter p).length = (L.map (fun l => (l.filter p).length)).sum := by
  induction L with
  | nil => rfl
  | cons l ls ih =>
    simp [List.filter_append, ih]
    rfl

theorem sum_map_enumFrom_eq {α : Type} (g : α → ℕ) (f : ℕ × α → ℕ)
    (h : ∀ i x, f (i, x) = g x) :
    ∀ (k : ℕ) (l : List α), ((List.enumFrom k l).map f).sum = (l.map g).sum := by
  intro k l
  induction l generalizing k with
  | nil => rfl
  | cons x xs ih => simp [List.enumFrom, h, ih]

theorem sum_ite_eq_length_filter {α : Type} (P : α → Prop) [DecidablePred P] (l : List α) :
    (l.map (fun x => if P x then 1 else 0)).sum = (l.filter (fun x => decide (P x))).length := by
  induction l with
  | nil => rfl
  | cons x xs ih => by_cases h : P x <;> simp [h, ih, Nat.add_comm]

theorem filter_point_map_add_point (c : ℤ × ℤ × ℤ) (pts : List (ℚ × ℚ)) :
    ((pts.map (fun p => add_point p "" (some c))).filter is_point_feature) =
      pts.map (fun p => add_point p "" (some c)) := by
  induction pts with
  | nil => rfl
  | cons q qs ih =>
    show List.filter is_point_feature
      (add_point q "" (some c) :: qs.map (fun p => add_point p "" (some c))) = _
    rw [List.filter_cons]
    have hq : is_point_feature (add_point q "" (some c)) = true := rfl
    rw [hq, if_pos rfl, ih]
    rfl

theorem filter_polygon_map_add_point (c : ℤ × ℤ × ℤ) (pts : List (ℚ × ℚ)) :
    ((pts.map (fun p => add_point p "" (some c))).filter is_polygon_feature) = [] := by
  induction pts with
  | nil => rfl
  | cons q qs ih =>
    show List.filter is_polygon_feature
      (add_point q "" (some c) :: qs.map (fun p => add_point p "" (some c))) = []
    rw [List.filter_cons]
    have hq : is_polygon_feature (add_point q "" (some c)) = false := rfl
    rw [hq]
    simpa using ih

theorem is_point_feature_groundpoint_polygon (pts : List (ℚ × ℚ)) (n : String)
    (c : ℤ × ℤ × ℤ) (w : ℕ) :
    is_point_feature (generate_groundpoint_polygon pts n c w) = false := rfl

theorem is_polygon_feature_groundpoint_polygon (pts : List (ℚ × ℚ)) (n : String)
    (c : ℤ × ℤ × ℤ) (w : ℕ) :
    is_polygon_feature (generate_groundpoint_polygon pts n c w) = true := rfl

theorem sort_points_by_angle_length (pts : List (ℚ × ℚ)) :
    (sort_points_by_angle pts).length = pts.length := by
  simp only [sort_points_by_angle]
  exact List.length_mergeSort pts

theorem group_features_small (cg : List (ℤ × ℤ × ℤ)) (ig : ℕ × String × List (ℚ × ℚ))
    (h3 : ig.2.2.length ≤ 3) :
    group_features cg true ig = ig.2.2.map (fun p => add_point p ""
      (some (if cg.isEmpty then (255, 0, 0) else cg.getD ig.1 (255, 0, 0)))) := by
  simp only [group_features]
  rw [if_pos (show True ∧ ig.2.2.length ≤ 3 from ⟨trivial, h3⟩),
    if_neg (not_lt.2 h3), List.append_nil]

theorem group_features_big (cg : List (ℤ × ℤ × ℤ)) (ig : ℕ × String × List (ℚ × ℚ))
    (h3 : 3 < ig.2.2.length) :
    group_features cg true ig = [generate_groundpoint_polygon ig.2.2 ig.2.1
      (if cg.isEmpty then (255, 0, 0) else cg.getD ig.1 (255, 0, 0)) DEFAULT_LINE_WIDTH] := by
  simp only [group_features]
  rw [if_neg (fun hc : True ∧ ig.2.2.length ≤ 3 => absurd h3 (not_lt.2 hc.2)),
    if_pos h3, List.nil_append]

theorem group_features_point_count (cg : List (ℤ × ℤ × ℤ)) (ig : ℕ × String × List (ℚ × ℚ)) :
    ((group_features cg true ig).filter is_point_feature).length =
      if ig.2.2.length ≤ 3 then ig.2.2.length else 0 := by
  by_cases h3 : ig.2.2.length ≤ 3
  · rw [group_features_small cg ig h3, filter_point_map_add_point]
    simp [h3]
  · rw [group_features_big cg ig (not_le.1 h3)]
    rw [List.filter_cons]
    rw [is_point_feature_groundpoint_polygon]
    simp [h3]

theorem group_features_polygon_count (cg : List (ℤ × ℤ × ℤ)) (ig : ℕ × String × List (ℚ × ℚ)) :
    ((group_features cg true ig).filter is_polygon_feature).length =
      if 3 < ig.2.2.length then 1 else 0 := by
  by_cases h3 : 3 < ig.2.2.length
  · rw [group_features_big cg ig h3]
    rw [List.filter_cons]
    rw [is_polygon_feature_groundpoint_polygon]
    simp [h3]
  · rw [group_features_small cg ig (not_lt.1 h3), filter_polygon_map_add_point]
    simp [h3]

theorem polygon_ring_closed_of_big (pts : List (ℚ × ℚ)) (n : String) (c : ℤ × ℤ × ℤ) (w : ℕ)
    (h3 : 3 < pts.length) :
    polygon_ring (generate_groundpoint_polygon pts n c w) ≠ [] ∧
    (polygon_ring (generate_groundpoint_polygon pts n c w)).head? =
      (polygon_ring (generate_groundpoint_polygon pts n c w)).getLast? := by
  have hnl : ¬ pts.length < 3 := by omega
  have hsort : generate_groundpoint_polygon pts n c w =
      KMLFeature.polygon
        (match sort_points_by_angle pts with
         | [] => ([] : List (ℚ × ℚ))
         | h :: t => (h :: t) ++ [h]) n c w := by
    simp only [generate_groundpoint_polygon]
    rw [if_neg hnl]
  cases hs : sort_points_by_angle pts with
  | nil =>
    exfalso
    have hlen := sort_points_by_angle_length pts
    rw [hs] at hlen
    simp at hlen
    omega
  | cons hd tl =>
    rw [hsort, hs]
    have hring : polygon_ring (KMLFeature.polygon ((hd :: tl) ++ [hd]) n c w) =
        (hd :: tl) ++ [hd] := rfl
    constructor
    · rw [hring]
      simp
    · rw [hring, List.getLast?_concat]
      rfl

theorem group_features_polygon_closed (cg : List (ℤ × ℤ × ℤ)) (po : Bool)
    (ig : ℕ × String × List (ℚ × ℚ)) (f : KMLFeature)
    (hf : f ∈ group_features cg po ig) (hpoly : is_polygon_feature f = true) :
    polygon_ring f ≠ [] ∧ (polygon_ring f).head? = (polygon_ring f).getLast? := by
  simp only [group_features] at hf
  rcases List.mem_append.1 hf with h | h
  · exfalso
    by_cases hc : po = true ∧ ig.2.2.length ≤ 3
    · rw [if_pos hc] at h
      obtain ⟨q, _, hq⟩ := List.mem_map.1 h
      rw [← hq] at hpoly
      exact absurd hpoly (by simp [add_point, is_polygon_feature])
    · rw [if_neg hc] at h
      exact List.not_mem_nil _ h
  · by_cases hc : 3 < ig.2.2.length
    · rw [if_pos hc] at h
      rw [List.mem_singleton] at h
      subst h
      exact polygon_ring_closed_of_big _ _ _ _ hc
    · rw [if_neg hc] at h
      exact absurd h (List.not_mem_nil _)

/-- C7 (confirmed): with point output enabled, across the whole grouped
output the number of emitted point features is the total size of the groups
with at most 3 landed points (one point per landed point, no polygon for
them), the number of emitted polygons is exactly the number of groups with
more than 3 landed points (one polygon each, no individual points for
them), and every emitted polygon ring is non-empty and closed (its first
vertex repeats as its last). -/
theorem c7_grouped_points_polygons_dichotomy (groups : List (String × List (ℚ × ℚ))) :
    ((generate_grouped_points_polygons groups true).filter is_point_feature).length =
      (groups.map (fun g => if g.2.length ≤ 3 then g.2.length else 0)).sum ∧
    ((generate_grouped_points_polygons groups true).filter is_polygon_feature).length =
      (groups.filter (fun g => decide (3 < g.2.length))).length ∧
    ∀ f ∈ generate_grouped_points_polygons groups true, is_polygon_feature f = true →
      polygon_ring f ≠ [] ∧ (polygon_ring f).head? = (polygon_ring f).getLast? := by
  refine ⟨?_, ?_, ?_⟩
  · simp only [generate_grouped_points_polygons]
    rw [length_filter_flatten, List.map_map]
    exact sum_map_enumFrom_eq _ _
      (fun i x => group_features_point_count _ (i, x)) 0 groups
  · simp only [generate_grouped_points_polygons]
    rw [length_filter_flatten, List.map_map]
    rw [← sum_ite_eq_length_filter (fun g : String × List (ℚ × ℚ) => 3 < g.2.length) groups]
    exact sum_map_enumFrom_eq _ _
      (fun i x => group_features_polygon_count _ (i, x)) 0 groups
  · intro f hf hpoly
    simp only [generate_grouped_points_polygons] at hf
    rw [List.mem_flatten] at hf
    obtain ⟨l, hl, hfl⟩ := hf
    obtain ⟨ig, _, hig⟩ := List.mem_map.1 hl
    rw [← hig] at hfl
    exact group_features_polygon_closed _ _ _ _ hfl hpoly

/-! ## C8: merging two KML documents -/

theorem last_close_index_le {s : List Char} {start k : ℕ}
    (h : last_close_index s start = some k) : start ≤ k := by
  unfold last_close_index at h
  have hmem : k ∈ (List.range s.length).filter
      (fun k => decide (start ≤ k) && doc_close_pat.isPrefixOf (s.drop k)) :=
    List.mem_of_mem_getLast? h
  have hpred := (List.mem_filter.1 hmem).2
  rw [Bool.and_eq_true] at hpred
  exact of_decide_eq_true hpred.1

theorem document_match_at_le {s : List Char} {i j k : ℕ}
    (h : document_match_at s i = some (j, k)) : j + 1 ≤ k := by
  unfold document_match_at at h
  cases hg : first_gt_index s (i + 9) with
  | none =>
    rw [hg] at h
    simp at h
  | some j' =>
    rw [hg] at h
    rw [Option.some_bind] at h
    cases hc : last_close_index s (j' + 1) with
    | none =>
      rw [hc] at h
      simp at h
    | some k' =>
      rw [hc] at h
      simp only [Option.map_some', Option.some.injEq, Prod.mk.injEq] at h
      obtain ⟨hj, hk⟩ := h
      subst hj
      subst hk
      exact last_close_index_le hc

theorem document_split_reassemble {s h ei f : List Char}
    (hs : document_split s = some (h, ei, f)) : s = h ++ ei ++ f := by
  unfold document_split at hs
  obtain ⟨i, _, hmap⟩ := List.exists_of_findSome?_eq_some hs
  cases hjk : document_match_at s i with
  | none =>
    rw [hjk] at hmap
    simp at hmap
  | some jk =>
    rw [hjk] at hmap
    simp only [Option.map_some', Option.some.injEq, Prod.mk.injEq] at hmap
    obtain ⟨h1, h2, h3⟩ := hmap
    subst h1
    subst h2
    subst h3
    have hle : jk.1 + 1 ≤ jk.2 := document_match_at_le hjk
    rw [List.append_assoc]
    have e1 : (List.drop (jk.1 + 1) s).take (jk.2 - (jk.1 + 1)) ++ List.drop jk.2 s =
        List.drop (jk.1 + 1) s := by
      have e2 : List.drop jk.2 s =
          List.drop (jk.2 - (jk.1 + 1)) (List.drop (jk.1 + 1) s) := by
        rw [List.drop_drop]
        congr 1
        omega
      rw [e2, List.take_append_drop]
    rw [e1, List.take_append_drop]

/-- C8 (confirmed): when both documents match the top-level `Document`
pattern, the merged document is exactly the first document's header, its
inner Document content, immediately followed by the second document's inner
Document content, then the first document's footer — no content is removed,
deduplicated or altered; moreover the header and footer really are the first
document's outer wrapper (header ++ inner ++ footer reassembles it). -/
theorem c8_merge_concatenates_documents (e z h ei f hz zi fz : List Char)
    (he : document_split e = some (h, ei, f))
    (hzm : document_split z = some (hz, zi, fz)) :
    merge_kmz_to_kml e z = h ++ ei ++ zi ++ f ∧ e = h ++ ei ++ f := by
  constructor
  · unfold merge_kmz_to_kml
    rw [he, hzm]
  · exact document_split_reassemble he

theorem c8_merge_witness :
    document_split "<kml><Document a>X</Document></kml>".toList =
      some ("<kml><Document a>".toList, "X".toList, "</Document></kml>".toList) ∧
    document_split "<kml><Document b>Y</Document></kml>".toList =
      some ("<kml><Document b>".toList, "Y".toList, "</Document></kml>".toList) ∧
    (merge_kmz_to_kml "<kml><Document a>X</Document></kml>".toList
        "<kml><Document b>Y</Document></kml>".toList =
      "<kml><Document a>".toList ++ "X".toList ++ "Y".toList ++ "</Document></kml>".toList ∧
    "<kml><Document a>X</Document></kml>".toList =
      "<kml><Document a>".toList ++ "X".toList ++ "</Document></kml>".toList) := by
  have h1 : document_split "<kml><Document a>X</Document></kml>".toList =
      some ("<kml><Document a>".toList, "X".toList, "</Document></kml>".toList) := by decide
  have h2 : document_split "<kml><Document b>Y</Document></kml>".toList =
      some ("<kml><Document b>".toList, "Y".toList, "</Document></kml>".toList) := by decide
  exact ⟨h1, h2, c8_merge_concatenates_documents _ _ _ _ _ _ _ _ h1 h2⟩
